import Mathlib

set_option linter.unusedVariables false

/-!
Verification development for the research-agent pipeline
(`agent/agent_starter.py` and `server.py`).

Strings are modelled as lists of characters (`Str`).  External effects
(HTTP requests, the Tavily and DuckDuckGo providers, PDF parsing,
trafilatura extraction, the OpenAI client) are modelled by environment
records that fix the outcome of each external call; a call that can raise
a Python exception is modelled with `Except Str` (the payload being
`str(e)`), and `None`-able Python values with `Option`.  Python's
`try/except Exception` blocks are inlined as matches on those outcomes.
Machine-level details that no modelled claim depends on (response bytes,
unicode classes beyond ASCII, float rounding in sentence scores — scores
are computed exactly in `ℚ`) are simplified, as noted at each definition.
-/

/-- Python strings, modelled as lists of characters. -/
abbrev Str := List Char

/-- Literal helper: the character list of a Lean string literal. -/
def str (s : String) : Str := s.toList

/-- Python `s.lower()` (ASCII). -/
def pyLower (s : Str) : Str := s.map Char.toLower

/-- Python `s.strip()`: drop whitespace on both ends. -/
def pyStrip (s : Str) : Str :=
  ((s.dropWhile Char.isWhitespace).reverse.dropWhile Char.isWhitespace).reverse

/-- Python `l[:n]` for an `int` slice bound `n` (negative bounds count
from the end). -/
def pySliceTo (n : Int) (l : List α) : List α :=
  if 0 ≤ n then l.take n.toNat else l.take (l.length - (-n).toNat)

/-- Python `pat in s` (substring containment). -/
def strHasSub (s pat : Str) : Bool :=
  (List.range (s.length + 1)).any (fun i => (s.drop i).take pat.length = pat)

/-- Python `s.endswith(pat)`. -/
def strEndsWith (s pat : Str) : Bool :=
  s.reverse.take pat.length = pat.reverse

/-- A word character for the regex `\w` (ASCII). -/
def isWordChar (c : Char) : Bool := c.isAlphanum || c = '_'

/-- `re.findall(r"\b\w+\b", s)`: the maximal runs of word characters.
First argument accumulates the current run, reversed. -/
def wordRunsGo : Str → Str → List Str
  | run, [] => if run = [] then [] else [run.reverse]
  | run, c :: rest =>
    if isWordChar c then wordRunsGo (c :: run) rest
    else if run = [] then wordRunsGo [] rest
    else run.reverse :: wordRunsGo [] rest

/-- All maximal word-character runs of `s`. -/
def wordRuns (s : Str) : List Str := wordRunsGo [] s

/-- Sentence-ending punctuation of the split regex `(?<=[.!?])\s+`. -/
def sentEnd (c : Char) : Bool := c = '.' || c = '!' || c = '?'

/-- Whether the last consumed character (head of the reversed
accumulator) is sentence-ending punctuation. -/
def headSentEnd (acc : Str) : Bool :=
  match acc with
  | p :: _ => sentEnd p
  | [] => false

mutual
/-- `re.split(r'(?<=[.!?])\s+', notes)`: scanning state, with the current
sentence accumulated in reverse.  A whitespace character right after
sentence-ending punctuation closes the sentence and enters `sentSkip`,
which consumes the rest of the (greedy) whitespace run. -/
def sentSplitGo : Str → Str → List Str
  | acc, [] => [acc.reverse]
  | acc, c :: rest =>
    if c.isWhitespace && headSentEnd acc then
      acc.reverse :: sentSkip rest
    else sentSplitGo (c :: acc) rest

/-- Consume the remainder of a whitespace separator run; a trailing
separator yields a final empty sentence, as `re.split` does. -/
def sentSkip : Str → List Str
  | [] => [[]]
  | c :: rest =>
    if c.isWhitespace then sentSkip rest else sentSplitGo [c] rest
end

/-- Sentence split of the notes blob. -/
def sentSplit (notes : Str) : List Str := sentSplitGo [] notes

/-- The keyword set of `local_extractive_summary`. -/
def keywords : List Str :=
  [str "pfas", str "pfoa", str "pfos", str "limit", str "standard",
   str "guideline", str "gac", str "ion", str "exchange", str "ebct",
   str "ro", str "cost", str "treatment", str "drinking", str "water",
   str "regulation", str "epa", str "who", str "eu", str "uk",
   str "compare", str "costs", str "design", str "table"]

/-- The scored-sentence list of `local_extractive_summary`: enumerate the
first 400 sentences, skip sentences with no word tokens, and score the
rest.  Scores are exact rationals; the Python floats at these operand
sizes only differ by rounding, which no modelled claim depends on. -/
def scoredOf (notes : Str) : List (ℚ × ℕ × Str) :=
  ((sentSplit notes).take 400).enum.filterMap (fun p =>
    let words := wordRuns (pyLower p.2)
    if words = [] then none
    else
      let kw : ℕ := words.countP (fun w => decide (w ∈ keywords))
      some ((kw : ℚ) + min ((p.2.length : ℚ) / 120) (3 / 2)
              + (if p.1 < 5 then (1 : ℚ) else 0),
            p.1, pyStrip p.2))

/-- `local_extractive_summary(notes, max_sentences)` from
`agent_starter.py`.  Python's `sorted` is a stable sort; it is modelled
by `List.insertionSort`, which is also stable, hence produces the same
list. -/
def local_extractive_summary (notes : Str) (max_sentences : ℕ) : Str :=
  if notes = [] then str "(no content)"
  else
    let sentences := sentSplit notes
    let scored := scoredOf notes
    if scored = [] then
      match sentences with
      | [] => str "(no content)"
      | s0 :: _ => s0.take 400
    else
      let top :=
        (List.insertionSort (fun a b : ℚ × ℕ × Str => b.1 ≤ a.1) scored).take
          max_sentences
      let top2 :=
        (List.insertionSort (fun a b : ℚ × ℕ × Str => a.2.1 ≤ b.2.1) top).map
          (fun t => t.2.2)
      str "• " ++ List.intercalate (str "\n• ") top2

/-- `clip(s, n)` from `agent_starter.py`. -/
def clip (s : Str) (n : ℕ) : Str :=
  if s.length ≤ n then s else s.take n ++ str "\n...[truncated]"

/-- A parsed URL, after Python's `urlparse` (six components). -/
structure Url where
  scheme : Str
  netloc : Str
  path : Str
  params : Str
  query : Str
  frag : Str
deriving DecidableEq, Repr

/-- `urlparse(u)._replace(query="", fragment="")`. -/
def stripQF (u : Url) : Url :=
  ⟨u.scheme, u.netloc, u.path, u.params, [], []⟩

/-- `geturl()`: reassemble the URL string from its components
(`urlunparse` composition). -/
def Url.geturl (u : Url) : Str :=
  (if u.scheme = [] then [] else u.scheme ++ str ":")
    ++ (if u.netloc = [] then [] else str "//" ++ u.netloc)
    ++ u.path
    ++ (if u.params = [] then [] else str ";" ++ u.params)
    ++ (if u.query = [] then [] else str "?" ++ u.query)
    ++ (if u.frag = [] then [] else str "#" ++ u.frag)

/-- The dedup key of `dedupe_urls`: the URL rendered with query string
and fragment stripped. -/
def urlKey (u : Url) : Str := (stripQF u).geturl

/-- `is_pdf_url(url)` from `agent_starter.py`. -/
def is_pdf_url (u : Url) : Bool := strEndsWith (pyLower u.path) (str ".pdf")

/-- A result-list entry as produced by the providers and consumed by
`dedupe_urls`: a dict with optional `title`, `href` and `url` keys.
Provider URL strings are represented already parsed; Python's falsiness
of the empty string on the URL values is not representable and is not
needed by any claim. -/
structure RawItem where
  title : Option Str
  href : Option Url
  url : Option Url
deriving DecidableEq, Repr

/-- `it.get("href") or it.get("url")`. -/
def RawItem.effUrl (it : RawItem) : Option Url :=
  match it.href with
  | some u => some u
  | none => it.url

/-- The dedup key contributed by one raw item, if any. -/
def itemKey (it : RawItem) : Option Str := it.effUrl.map urlKey

/-- A source hit `{title, href}` as stored by `dedupe_urls` and by the
seed path (`href` is a plain string in both). -/
structure SourceHit where
  title : Str
  href : Str
deriving DecidableEq, Repr

/-- The loop of `dedupe_urls`, with the `seen` set of rendered keys. -/
def dedupe_go : List RawItem → List Str → List SourceHit
  | [], _ => []
  | it :: rest, seen =>
    match it.effUrl with
    | none => dedupe_go rest seen
    | some u =>
      let key := urlKey u
      if key ∈ seen then dedupe_go rest seen
      else ⟨it.title.getD [], key⟩ :: dedupe_go rest (key :: seen)

/-- `dedupe_urls(items)` from `agent_starter.py`. -/
def dedupe_urls (items : List RawItem) : List SourceHit := dedupe_go items []

/-- Specification-side notion of first-seen deduplication: keep each
key's first occurrence, deleting the later ones. -/
def keepFirst : List Str → List Str
  | [] => []
  | k :: rest => k :: (keepFirst rest).filter (fun x => x ≠ k)

/-- The two search providers. -/
inductive Provider where
  | tavily
  | ddg
deriving DecidableEq, Repr

/-- One Tavily result item (`item.get("url")`, `item.get("title", "")`).
`url` is `none` when the `url` key is absent or null. -/
structure TavilyItem where
  title : Option Str
  url : Option Url
deriving Repr

/-- One DuckDuckGo result item (`r.get("href") or r.get("link")`,
`r.get("title", "")`). -/
structure DdgItem where
  title : Option Str
  href : Option Url
  link : Option Url
deriving Repr

/-- Environment of one `search_web` call: configuration and the outcome
of each provider call.  `tavilyClient` is whether the `tavily` import
succeeded (`TavilyClient is not None`); an `Except.error` outcome is the
provider call raising. -/
structure SearchEnv where
  tavilyKey : Bool
  tavilyClient : Bool
  tavily : Except Str (List TavilyItem)
  ddg : Except Str (List DdgItem)

/-- The raw result entries appended by the Tavily phase of `search_web`
(empty when Tavily is not configured, raised, or returned no usable
items). -/
def tavilyRaw (env : SearchEnv) : List RawItem :=
  if env.tavilyKey && env.tavilyClient then
    match env.tavily with
    | .ok items =>
      items.filterMap (fun it =>
        it.url.map (fun u => ⟨some (it.title.getD []), some u, none⟩))
    | .error _ => []
  else []

/-- The raw result entries appended by the DuckDuckGo phase. -/
def ddgRaw (env : SearchEnv) : List RawItem :=
  match env.ddg with
  | .ok rs =>
    rs.filterMap (fun r =>
      (match r.href with
       | some u => some u
       | none => r.link).map (fun u => ⟨some (r.title.getD []), some u, none⟩))
  | .error _ => []

/-- The `results` list of `search_web` before deduplication: the DDG
phase runs only when the Tavily phase left `results` empty. -/
def collected (env : SearchEnv) : List RawItem :=
  if tavilyRaw env = [] then ddgRaw env else tavilyRaw env

/-- `search_web(query, max_results)` from `agent_starter.py`, also
returning the list of providers that were queried, in order. -/
def search_web (query : Str) (max_results : Int) (env : SearchEnv) :
    List SourceHit × List Provider :=
  let tr1 : List Provider :=
    if env.tavilyKey && env.tavilyClient then [Provider.tavily] else []
  let tr2 : List Provider := if tavilyRaw env = [] then [Provider.ddg] else []
  (pySliceTo max_results (dedupe_urls (collected env)), tr1 ++ tr2)

/-- Outcome of the OpenAI phase of `synthesize_with_openai`: the client
constructor `OpenAI(...)` raising, a successful chat completion, or the
exception class raised by `client.chat.completions.create`.
`AuthenticationError` and `RateLimitError` are matched by the first
`except` clause; every other exception by the second (catch-all). -/
inductive OpenAIOutcome where
  | ctorRaise (e : Str)
  | ok (content : Str)
  | authErr (e : Str)
  | rateErr (e : Str)
  | connErr (e : Str)
  | statusErr (e : Str)
  | badReqErr (e : Str)
  | otherErr (e : Str)

/-- The degraded answer for the auth/quota `except` clause. -/
def authMsg (e notes : Str) : Str :=
  str "[OpenAI auth/quota]\n" ++ e ++ str "\n\nLocal summary:\n"
    ++ local_extractive_summary notes 7

/-- The degraded answer for the generic-error `except` clause. -/
def errMsg (e notes : Str) : Str :=
  str "[OpenAI error]\n" ++ e ++ str "\n\nLocal summary:\n"
    ++ local_extractive_summary notes 7

/-- `synthesize_with_openai(prompt, notes, sources)` from
`agent_starter.py`.  The client construction happens before the `try`
block, so its exception is not caught (`Except.error`). -/
def synthesize_with_openai (prompt notes : Str) (sources : List SourceHit)
    (env : OpenAIOutcome) : Except Str Str :=
  match env with
  | .ctorRaise e => .error e
  | .ok content => .ok content
  | .authErr e => .ok (authMsg e notes)
  | .rateErr e => .ok (authMsg e notes)
  | .connErr e => .ok (errMsg e notes)
  | .statusErr e => .ok (errMsg e notes)
  | .badReqErr e => .ok (errMsg e notes)
  | .otherErr e => .ok (errMsg e notes)

/-- An HTTP response as consumed by `fetch_text`: the `Content-Type`
header (absent ↦ `none`), whether `raise_for_status()` raises (the
message), and the decoded text body. -/
structure HttpResp where
  contentType : Option Str
  statusExn : Option Str
  text : Str

/-- Environment of one `fetch_text` call.  `pdfOpen` is the outcome of
`PdfReader`, giving per page the outcome of `p.extract_text()` (which
may raise, or return `None`); `trafFetch` is `trafilatura.fetch_url`
and `trafExtract` is `trafilatura.extract` on the downloaded text. -/
structure FetchEnv where
  getResp : Except Str HttpResp
  pdfOpen : Except Str (List (Except Str (Option Str)))
  trafFetch : Except Str (Option Str)
  trafExtract : Str → Except Str (Option Str)

/-- The PDF-branch test: `"pdf" in ctype or is_pdf_url(url)`. -/
def pdfBranchCond (url : Url) (r : HttpResp) : Bool :=
  strHasSub (pyLower (r.contentType.getD [])) (str "pdf") || is_pdf_url url

/-- The page loop of the PDF branch: `p.extract_text() or ""` per page;
the first raising page aborts the loop with its exception. -/
def extractPages : List (Except Str (Option Str)) → Except Str (List Str)
  | [] => .ok []
  | .error e :: _ => .error e
  | .ok t :: ps => (extractPages ps).map (fun ts => t.getD [] :: ts)

/-- `downloaded = trafilatura.fetch_url(url) or r.text` (Python `or`:
`None` and the empty string both fall back to `r.text`). -/
def downloadedOf (tf : Option Str) (rtext : Str) : Str :=
  match tf with
  | some d => if d = [] then rtext else d
  | none => rtext

/-- The inline fetch-error marker `f"[Fetch error for {url}: {e}]"`. -/
def mkFetchErr (url : Url) (e : Str) : Str :=
  str "[Fetch error for " ++ url.geturl ++ str ": " ++ e ++ str "]"

/-- Result of `fetch_text`, together with the temporary-file effects of
the PDF branch: whether `tmp_download.pdf` was written and whether the
`finally` block deleted it. -/
structure FetchResult where
  text : Str
  tmpWritten : Bool
  tmpDeleted : Bool
deriving DecidableEq, Repr

/-- `fetch_text(url, timeout)` from `agent_starter.py`, with the outer
`except Exception` inlined: every modelled raise becomes the inline
error marker.  Writing the temporary file is modelled as succeeding
(its bytes are never inspected). -/
def fetch_text (url : Url) (timeout : Int) (env : FetchEnv) : FetchResult :=
  match env.getResp with
  | .error e => ⟨mkFetchErr url e, false, false⟩
  | .ok r =>
    match r.statusExn with
    | some e => ⟨mkFetchErr url e, false, false⟩
    | none =>
      if pdfBranchCond url r then
        match env.pdfOpen with
        | .error e => ⟨mkFetchErr url e, true, true⟩
        | .ok pages =>
          match extractPages pages with
          | .error e => ⟨mkFetchErr url e, true, true⟩
          | .ok texts => ⟨List.intercalate (str "\n") texts, true, true⟩
      else
        match env.trafFetch with
        | .error e => ⟨mkFetchErr url e, false, false⟩
        | .ok tf =>
          match env.trafExtract (downloadedOf tf r.text) with
          | .error e => ⟨mkFetchErr url e, false, false⟩
          | .ok (some x) =>
            if x = [] then ⟨r.text.take 8000, false, false⟩
            else ⟨x, false, false⟩
          | .ok none => ⟨r.text.take 8000, false, false⟩

/-- The failure conditions of a `fetch_text` call: the HTTP request
raising, `raise_for_status` raising, `PdfReader` or any page extraction
raising on the PDF branch, or `trafilatura` raising on the HTML branch.
(`extract` returning nothing is the documented raw-text fallback, not a
failure.) -/
def fetchFails (url : Url) (env : FetchEnv) : Prop :=
  match env.getResp with
  | .error _ => True
  | .ok r =>
    match r.statusExn with
    | some _ => True
    | none =>
      if pdfBranchCond url r then
        match env.pdfOpen with
        | .error _ => True
        | .ok pages => ∃ e, Except.error e ∈ pages
      else
        match env.trafFetch with
        | .error _ => True
        | .ok tf => ∃ e, env.trafExtract (downloadedOf tf r.text) = .error e

/-- The PDF branch of `fetch_text` is reached. -/
def pdfBranch (url : Url) (env : FetchEnv) : Prop :=
  ∃ r, env.getResp = .ok r ∧ r.statusExn = none ∧ pdfBranchCond url r = true

/-- The text one non-raising page contributes (`extract_text() or ""`). -/
def pageTextD : Except Str (Option Str) → Str
  | .ok t => t.getD []
  | .error _ => []

/-- Environment of one `minimal_research_agent` run: the search
environment, the (never-raising, see `fetch_text`) fetch outcome per
source URL string, and the OpenAI outcome. -/
structure AgentEnv where
  search : SearchEnv
  fetchText : Str → Str
  openai : OpenAIOutcome

/-- Outcome of the source-resolution step (step 1) of
`minimal_research_agent`: either a hit list to proceed with, or a
terminal human-readable message. -/
inductive SRes where
  | proceed (hits : List SourceHit)
  | terminal (msg : Str)
deriving DecidableEq, Repr

/-- The seed-path hit list:
`[{"title": "seed", "href": u} for u in seed_urls if u.strip()]`. -/
def seedHits (seed_urls : List Str) : List SourceHit :=
  (seed_urls.filter (fun u => pyStrip u ≠ [])).map
    (fun u => ⟨str "seed", u⟩)

/-- Step 1 of `minimal_research_agent` (lines 169-182 of
`agent_starter.py`), also returning the providers queried. -/
def resolve_sources (query : Str) (no_search : Bool) (seed_urls : List Str)
    (max_results : Int) (env : SearchEnv) : SRes × List Provider :=
  if seed_urls ≠ [] then
    let hits := seedHits seed_urls
    if hits = [] then (.terminal (str "No valid seed URLs provided."), [])
    else (.proceed hits, [])
  else if no_search then
    (.terminal (str "no_search requires --seed URL(s). Provide at least one URL."), [])
  else
    let p := search_web query max_results env
    if p.1 = [] then
      (.terminal
        (str "No search results (rate-limited or blocked). Try fewer results or provide --seed."),
       p.2)
    else (.proceed p.1, p.2)

/-- One notes block: `f"# {h['href']}\n{clip(txt, n=4000)}"`. -/
def noteChunk (fetch : Str → Str) (h : SourceHit) : Str :=
  str "# " ++ h.href ++ str "\n" ++ clip (fetch h.href) 4000

/-- Result of a `minimal_research_agent` run: the answer and the source
hits that were used (empty on the terminal informational paths). -/
structure AgentResult where
  answer : Str
  sources : List SourceHit
deriving DecidableEq, Repr

/-- `minimal_research_agent` from `agent_starter.py` (the optional save
and the prints are elided; neither affects any modelled claim).  An
`Except.error` result is an uncaught exception propagating. -/
def minimal_research_agent (query : Str) (no_search : Bool)
    (seed_urls : List Str) (force_local : Bool) (max_results : Int)
    (env : AgentEnv) : Except Str AgentResult :=
  match resolve_sources query no_search seed_urls max_results env.search with
  | (.terminal msg, _) => .ok ⟨msg, []⟩
  | (.proceed hits, _) =>
    let combined :=
      List.intercalate (str "\n\n") (hits.map (noteChunk env.fetchText))
    if force_local then
      .ok ⟨local_extractive_summary combined 8, hits⟩
    else
      (synthesize_with_openai query combined hits env.openai).map
        (fun ans => ⟨ans, hits⟩)

/-- The command surface's `max_results=max(1, min(8, args.max_results))`
(line 232 of `agent_starter.py`). -/
def cli_effective_max_results (m : Int) : Int := max 1 (min 8 m)

/-- A `/api/run` request body (`server.py`).  `no_search` and
`seed_urls` are accepted but never read by `run_agent`, exactly as in
the source. -/
structure RunRequest where
  query : Str
  no_search : Bool
  max_results : Int
  seed_urls : List Str
  force_local : Bool
  demo_mode : Bool

/-- A `/api/run` response body. -/
structure RunResponse where
  answer : Str
  sources : List Str
deriving DecidableEq, Repr

/-- Environment of one `run_agent` request: the environment handed to
`search_web`, the server's module-level Tavily configuration and its
fallback-search outcome, the `DEMO_LOCK_OUTPUT` toggle, and the fetch
and OpenAI outcomes. -/
structure ServerEnv where
  agentSearch : SearchEnv
  serverTavilyKey : Bool
  tavily2 : Except Str (List TavilyItem)
  demoLock : Bool
  fetchText : Str → Str
  openai : OpenAIOutcome

/-- `search_with_tavily` from `server.py`: raw pass-through of the
provider items (`r["url"]`, `r["title"]` — a missing key raises, caught
by the bare `except`, yielding `[]`); no dedup, no normalization, no
truncation. -/
def search_with_tavily (max_results : Int) (env : ServerEnv) :
    List SourceHit :=
  if env.serverTavilyKey then
    match env.tavily2 with
    | .error _ => []
    | .ok rs =>
      match rs.mapM (fun r =>
          r.url.bind (fun u => r.title.map (fun t =>
            (⟨t, u.geturl⟩ : SourceHit)))) with
      | some hs => hs
      | none => []
  else []

/-- Steps 1-2 of `run_agent`: `search_web` first, then the server's
Tavily fallback when it returned nothing; with the provider trace. -/
def server_search (q : Str) (mr : Int) (env : ServerEnv) :
    List SourceHit × List Provider :=
  let p := search_web q mr env.agentSearch
  if p.1 = [] then
    (search_with_tavily mr env,
     p.2 ++ (if env.serverTavilyKey then [Provider.tavily] else []))
  else p

/-- `run_agent` from `server.py` (the per-request rate limiter only
delays the `search_web` call and is elided), with the provider trace. -/
def run_agent (req : RunRequest) (env : ServerEnv) :
    Except Str RunResponse × List Provider :=
  if req.demo_mode || env.demoLock then
    (.ok ⟨str "Demo mode output", [str "https://example.com"]⟩, [])
  else
    let p := server_search req.query req.max_results env
    if p.1 = [] then
      (.ok ⟨str "No search results (rate-limited or failed)", []⟩, p.2)
    else
      let combined :=
        List.intercalate (str "\n\n") (p.1.map (noteChunk env.fetchText))
      let ans :=
        if req.force_local then
          Except.ok (local_extractive_summary combined 8)
        else synthesize_with_openai req.query combined p.1 env.openai
      (ans.map (fun a => ⟨a, p.1.map (fun h => h.href)⟩), p.2)

/-- A PDF URL used in concrete instantiations. -/
def url0 : Url := ⟨str "https", str "host", str "/doc.pdf", [], [], []⟩

/-- A fetch environment whose HTTP request raises. -/
def envFetchFail : FetchEnv :=
  ⟨.error (str "timed out"), .ok [], .ok none, fun _ => .ok none⟩

/-- A fetch environment on the PDF branch whose first page extraction
raises and whose second page extracts text. -/
def envPdfPage : FetchEnv :=
  ⟨.ok ⟨some (str "application/pdf"), none, str "body"⟩,
   .ok [.error (str "boom"), .ok (some (str "hello"))],
   .ok none, fun _ => .ok none⟩

/-- A search environment with nothing configured and both providers
raising. -/
def emptySearchEnv : SearchEnv := ⟨false, false, .error [], .error []⟩

/-- Two URLs that differ only in query string and fragment, and one
distinct URL. -/
def uA : Url := ⟨str "http", str "a.com", str "/x", [], str "q=1", str "f"⟩

/-- Same normalized URL as `uA`, different query. -/
def uB : Url := ⟨str "http", str "a.com", str "/x", [], str "q=2", []⟩

/-- A URL distinct from `uA`/`uB` after normalization. -/
def uC : Url := ⟨str "http", str "c.com", str "/y", [], [], []⟩

/-- A raw item list with a normalized-URL duplicate in the middle. -/
def itemsW : List RawItem :=
  [⟨some (str "t1"), some uA, none⟩, ⟨some (str "t2"), some uB, none⟩,
   ⟨none, none, some uC⟩]

/-- A search environment with Tavily configured and returning one
usable item. -/
def envTav : SearchEnv := ⟨true, true, .ok [⟨some (str "t"), some uC⟩], .ok []⟩

/-- An agent environment used for seed-path instantiations (search
unconfigured, trivial fetches, OpenAI succeeding). -/
def agentEnv0 : AgentEnv := ⟨emptySearchEnv, fun _ => [], .ok (str "ans")⟩

/-- Two identical seed URL strings, with query and fragment. -/
def seedsDup : List Str := [str "http://a.com/x?q=1#f", str "http://a.com/x?q=1#f"]

/-- A URL on host `s` with empty path. -/
def mkHostU (s : String) : Url := ⟨str "http", str s, [], [], [], []⟩

/-- Nine DuckDuckGo items with nine distinct URLs. -/
def ddg9 : List DdgItem :=
  [⟨none, some (mkHostU "h1"), none⟩, ⟨none, some (mkHostU "h2"), none⟩,
   ⟨none, some (mkHostU "h3"), none⟩, ⟨none, some (mkHostU "h4"), none⟩,
   ⟨none, some (mkHostU "h5"), none⟩, ⟨none, some (mkHostU "h6"), none⟩,
   ⟨none, some (mkHostU "h7"), none⟩, ⟨none, some (mkHostU "h8"), none⟩,
   ⟨none, some (mkHostU "h9"), none⟩]

/-- A server environment where only DuckDuckGo answers, with nine
distinct results. -/
def srvEnv9 : ServerEnv :=
  ⟨⟨false, false, .error [], .ok ddg9⟩, false, .error [], false,
   fun _ => [], .ok (str "a")⟩

/-- A `/api/run` request asking for 20 results. -/
def req20 : RunRequest := ⟨str "q", false, 20, [], false, false⟩

/-- A server environment whose `search_web` environment is `envTav`. -/
def srvEnvT : ServerEnv :=
  ⟨envTav, false, .error [], false, fun _ => [], .ok (str "a")⟩

/-- A plain `/api/run` request asking for 3 results. -/
def req3 : RunRequest := ⟨str "q", false, 3, [], true, false⟩

/-- A seed list with one blank and one non-blank entry. -/
def seedsMix : List Str := [str " ", str "http://u"]

/-- A seed list whose only entry is blank. -/
def seedsBlank : List Str := [str " "]

theorem sentSplitGo_shape (l : Str) : ∀ acc : Str,
    ∃ t rest, sentSplitGo acc l = (acc.reverse ++ t) :: rest := by
  induction l with
  | nil => intro acc; exact ⟨[], [], by simp [sentSplitGo]⟩
  | cons c cs ih =>
    intro acc
    by_cases h : (c.isWhitespace && headSentEnd acc) = true
    · exact ⟨[], sentSkip cs, by simp [sentSplitGo, h]⟩
    · obtain ⟨t, rest, ht⟩ := ih (c :: acc)
      refine ⟨[c] ++ t, rest, ?_⟩
      simp only [sentSplitGo, h, if_false]
      rw [ht]
      simp

theorem sentSplit_cons_shape (c : Char) (cs : Str) :
    ∃ t rest, sentSplit (c :: cs) = (c :: t) :: rest := by
  have h0 : sentSplit (c :: cs) = sentSplitGo [c] cs := by
    simp [sentSplit, sentSplitGo, headSentEnd]
  obtain ⟨t, rest, ht⟩ := sentSplitGo_shape cs [c]
  exact ⟨t, rest, by rw [h0, ht]; simp⟩

theorem extractPages_error_of_mem (pages : List (Except Str (Option Str)))
    (h : ∃ e, Except.error e ∈ pages) :
    ∃ e2, extractPages pages = .error e2 := by
  induction pages with
  | nil => obtain ⟨e, he⟩ := h; cases he
  | cons p ps ih =>
    cases p with
    | error e => exact ⟨e, rfl⟩
    | ok t =>
      obtain ⟨e, he⟩ := h
      rcases List.mem_cons.1 he with h1 | h1
      · cases h1
      · obtain ⟨e2, he2⟩ := ih ⟨e, h1⟩
        exact ⟨e2, by simp [extractPages, he2, Except.map]⟩

theorem extractPages_ok_of_no_error (pages : List (Except Str (Option Str)))
    (h : ∀ p ∈ pages, ∀ e, p ≠ Except.error e) :
    extractPages pages = .ok (pages.map pageTextD) := by
  induction pages with
  | nil => rfl
  | cons p ps ih =>
    cases p with
    | error e => exact absurd rfl (h _ (List.mem_cons_self _ _) e)
    | ok t =>
      have := ih (fun q hq e => h q (List.mem_cons_of_mem _ hq) e)
      simp [extractPages, this, pageTextD, Except.map]

/-- C1: for every URL and timeout, whenever the HTTP request, the status
check, PDF parsing (reader or any page), or HTML extraction raises,
`fetch_text` returns the inline error marker
`"[Fetch error for <url>: <reason>]"` containing that URL; no exception
propagates (the function is total into `FetchResult`). -/
theorem fetch_text_fail_marker (url : Url) (timeout : Int) (env : FetchEnv)
    (h : fetchFails url env) :
    ∃ e, (fetch_text url timeout env).text = mkFetchErr url e := by
  cases hG : env.getResp with
  | error e => exact ⟨e, by simp [fetch_text, hG]⟩
  | ok r =>
    cases hS : r.statusExn with
    | some e => exact ⟨e, by simp [fetch_text, hG, hS]⟩
    | none =>
      simp only [fetchFails, hG, hS] at h
      by_cases hc : pdfBranchCond url r = true
      · simp only [hc, if_true] at h
        cases hP : env.pdfOpen with
        | error e => exact ⟨e, by simp [fetch_text, hG, hS, hc, hP]⟩
        | ok pages =>
          rw [hP] at h
          obtain ⟨e2, he2⟩ := extractPages_error_of_mem pages h
          exact ⟨e2, by simp [fetch_text, hG, hS, hc, hP, he2]⟩
      · simp only [hc, if_false] at h
        cases hT : env.trafFetch with
        | error e => exact ⟨e, by simp [fetch_text, hG, hS, hc, hT]⟩
        | ok tf =>
          rw [hT] at h
          obtain ⟨e, he⟩ := h
          exact ⟨e, by simp [fetch_text, hG, hS, hc, hT, he]⟩

/-- Witness for C1 at a concrete failing environment. -/
theorem fetch_text_fail_marker_witness :
    fetchFails url0 envFetchFail ∧
      ∃ e, (fetch_text url0 25 envFetchFail).text = mkFetchErr url0 e :=
  ⟨trivial, fetch_text_fail_marker url0 25 envFetchFail trivial⟩

/-- C9 (amended): on the PDF branch the temporary file is written and
deleted on every exit path; a page whose `extract_text()` returns no
text contributes the empty string, but a page whose `extract_text()`
raises aborts the whole extraction (the temporary file is still deleted
and the fetch returns the inline error marker). -/
theorem pdf_branch_tmp_and_pages (url : Url) (timeout : Int) (env : FetchEnv) :
    (pdfBranch url env →
       (fetch_text url timeout env).tmpWritten = true ∧
         (fetch_text url timeout env).tmpDeleted = true) ∧
    (∀ r pages, env.getResp = .ok r → r.statusExn = none →
       pdfBranchCond url r = true → env.pdfOpen = .ok pages →
       ((∀ p ∈ pages, ∀ e, p ≠ Except.error e) →
          (fetch_text url timeout env).text
            = List.intercalate (str "\n") (pages.map pageTextD)) ∧
         (∀ e, Except.error e ∈ pages →
            ∃ e2, (fetch_text url timeout env).text = mkFetchErr url e2)) := by
  constructor
  · rintro ⟨r, hG, hS, hc⟩
    cases hP : env.pdfOpen with
    | error e => simp [fetch_text, hG, hS, hc, hP]
    | ok pages =>
      cases hE : extractPages pages with
      | error e => simp [fetch_text, hG, hS, hc, hP, hE]
      | ok texts => simp [fetch_text, hG, hS, hc, hP, hE]
  · intro r pages hG hS hc hP
    constructor
    · intro hnone
      have hE := extractPages_ok_of_no_error pages hnone
      simp [fetch_text, hG, hS, hc, hP, hE]
    · intro e he
      obtain ⟨e2, he2⟩ := extractPages_error_of_mem pages ⟨e, he⟩
      exact ⟨e2, by simp [fetch_text, hG, hS, hc, hP, he2]⟩

/-- Witness for C9's amended theorem at a concrete two-page PDF where
the first page extraction raises. -/
theorem pdf_branch_tmp_and_pages_witness :
    pdfBranch url0 envPdfPage ∧
      (fetch_text url0 25 envPdfPage).tmpWritten = true ∧
        (fetch_text url0 25 envPdfPage).tmpDeleted = true :=
  ⟨⟨⟨some (str "application/pdf"), none, str "body"⟩, rfl, rfl, by decide⟩,
   (pdf_branch_tmp_and_pages url0 25 envPdfPage).1
     ⟨⟨some (str "application/pdf"), none, str "body"⟩, rfl, rfl, by decide⟩⟩

/-- Counterexample to C9 as stated: in `envPdfPage` the first page's
`extract_text()` raises; the claim predicts that page contributes an
empty string and the extraction proceeds (text `"\nhello"`), but
`fetch_text` returns the inline fetch-error marker instead. -/
theorem pdf_page_raise_cex :
    (fetch_text url0 25 envPdfPage).text = mkFetchErr url0 (str "boom") ∧
      (fetch_text url0 25 envPdfPage).text ≠ str "\nhello" := by
  constructor
  · decide
  · decide

/-- C5: `clip(s, n)` returns a string of length at most `n` plus the
length of the truncation marker, and returns `s` unchanged whenever
`len(s) <= n`. -/
theorem clip_bounds (s : Str) (n : ℕ) :
    (clip s n).length ≤ n + (str "\n...[truncated]").length ∧
      (s.length ≤ n → clip s n = s) := by
  constructor
  · by_cases h : s.length ≤ n
    · rw [clip, if_pos h]
      omega
    · rw [clip, if_neg h]
      simp only [List.length_append, List.length_take]
      omega
  · intro h
    rw [clip, if_pos h]

/-- Witness for C5 at a concrete string and limit. -/
theorem clip_bounds_witness :
    (str "hi").length ≤ 5 ∧ clip (str "hi") 5 = str "hi" :=
  ⟨by decide, (clip_bounds (str "hi") 5).2 (by decide)⟩

/-- C6: `local_extractive_summary` returns exactly `"(no content)"` on
empty notes, a non-empty string on any non-empty notes, and, when no
sentence scores, the first raw sentence clipped to 400 characters. -/
theorem local_summary_spec :
    (∀ k, local_extractive_summary [] k = str "(no content)") ∧
      (∀ notes k, notes ≠ [] → local_extractive_summary notes k ≠ []) ∧
      (∀ notes k, notes ≠ [] → scoredOf notes = [] →
        local_extractive_summary notes k = (sentSplit notes).headI.take 400) := by
  refine ⟨fun k => rfl, ?_, ?_⟩
  · intro notes k h
    cases notes with
    | nil => exact absurd rfl h
    | cons c cs =>
      by_cases hs : scoredOf (c :: cs) = []
      · obtain ⟨t, rest, ht⟩ := sentSplit_cons_shape c cs
        rw [local_extractive_summary, if_neg (by simp)]
        simp only [hs, if_pos rfl, ht]
        simp
      · rw [local_extractive_summary, if_neg (by simp)]
        simp only [hs, if_neg hs]
        simp
        exact fun h2 => absurd h2 (by decide)
  · intro notes k h hs
    cases notes with
    | nil => exact absurd rfl h
    | cons c cs =>
      obtain ⟨t, rest, ht⟩ := sentSplit_cons_shape c cs
      rw [local_extractive_summary, if_neg (by simp)]
      simp only [hs, if_pos rfl, ht]
      simp

/-- Witness for C6 at concrete notes with unscorable sentences. -/
theorem local_summary_spec_witness :
    (str "!!" ≠ [] ∧ scoredOf (str "!!") = []) ∧
      local_extractive_summary (str "!!") 7 ≠ [] ∧
        local_extractive_summary (str "!!") 7
          = (sentSplit (str "!!")).headI.take 400 :=
  ⟨⟨by decide, by decide⟩,
   local_summary_spec.2.1 (str "!!") 7 (by decide),
   local_summary_spec.2.2 (str "!!") 7 (by decide) (by decide)⟩

/-- Counterexample to C2 as stated: when the `OpenAI(...)` client
construction raises (it stands before the `try` block; e.g. a missing
`OPENAI_API_KEY`), `synthesize_with_openai` propagates the exception
instead of returning a string. -/
theorem synthesize_ctor_raise_propagates :
    synthesize_with_openai (str "q") (str "n") []
        (.ctorRaise (str "missing key")) = .error (str "missing key") := rfl

/-- C2 (amended): provided the client construction succeeds,
`synthesize_with_openai` never propagates: it returns a string, with
the `[OpenAI auth/quota]` tag plus the fallback summary of the same
notes on `AuthenticationError`/`RateLimitError`, and the distinct
`[OpenAI error]` tag plus the same fallback on every other failure. -/
theorem synthesize_no_propagation_after_ctor (prompt notes : Str)
    (sources : List SourceHit) (env : OpenAIOutcome)
    (h : ∀ e, env ≠ OpenAIOutcome.ctorRaise e) :
    (∃ s, synthesize_with_openai prompt notes sources env = .ok s) ∧
      (∀ e, env = .authErr e ∨ env = .rateErr e →
        synthesize_with_openai prompt notes sources env
          = .ok (authMsg e notes)) ∧
      (∀ e, env = .connErr e ∨ env = .statusErr e ∨ env = .badReqErr e ∨
          env = .otherErr e →
        synthesize_with_openai prompt notes sources env
          = .ok (errMsg e notes)) := by
  refine ⟨?_, ?_, ?_⟩
  · cases env with
    | ctorRaise e => exact absurd rfl (h e)
    | ok c => exact ⟨c, rfl⟩
    | authErr e => exact ⟨_, rfl⟩
    | rateErr e => exact ⟨_, rfl⟩
    | connErr e => exact ⟨_, rfl⟩
    | statusErr e => exact ⟨_, rfl⟩
    | badReqErr e => exact ⟨_, rfl⟩
    | otherErr e => exact ⟨_, rfl⟩
  · rintro e2 (h2 | h2) <;> rw [h2] <;> rfl
  · rintro e2 (h2 | h2 | h2 | h2) <;> rw [h2] <;> rfl

/-- Witness for C2's amended theorem at a concrete authentication
failure. -/
theorem synthesize_no_propagation_after_ctor_witness :
    (∀ e, OpenAIOutcome.authErr (str "bad key")
        ≠ OpenAIOutcome.ctorRaise e) ∧
      synthesize_with_openai (str "q") (str "n") []
          (.authErr (str "bad key"))
        = .ok (authMsg (str "bad key") (str "n")) :=
  ⟨fun e h2 => OpenAIOutcome.noConfusion h2,
   (synthesize_no_propagation_after_ctor (str "q") (str "n") []
       (.authErr (str "bad key"))
       (fun e h2 => OpenAIOutcome.noConfusion h2)).2.1
     (str "bad key") (Or.inl rfl)⟩

theorem keepFirst_filter_comm (k : Str) (l : List Str) :
    keepFirst (l.filter (fun x => decide (x ≠ k)))
      = (keepFirst l).filter (fun x => decide (x ≠ k)) := by
  induction l with
  | nil => rfl
  | cons a t ih =>
    by_cases hak : a = k
    · subst hak
      have h1 : (a :: t).filter (fun x => decide (x ≠ a))
          = t.filter (fun x => decide (x ≠ a)) := by simp
      rw [h1, ih, keepFirst, List.filter_cons]
      simp [List.filter_filter]
    · have h1 : (a :: t).filter (fun x => decide (x ≠ k))
          = a :: t.filter (fun x => decide (x ≠ k)) := by simp [hak]
      rw [h1, keepFirst, keepFirst, ih, List.filter_cons]
      have h2 : (decide (a ≠ k)) = true := by simp [hak]
      rw [h2]
      simp only [if_true]
      rw [List.filter_filter, List.filter_filter]
      exact congrArg (a :: ·)
        (List.filter_congr (fun x hx => by rw [Bool.and_comm]))

theorem keepFirst_nodup (l : List Str) : (keepFirst l).Nodup := by
  induction l with
  | nil => exact List.nodup_nil
  | cons a t ih =>
    rw [keepFirst, List.nodup_cons]
    constructor
    · intro hmem
      have := List.of_mem_filter hmem
      simp at this
    · exact List.Nodup.filter _ ih

theorem keepFirst_subset (l : List Str) (x : Str) (h : x ∈ keepFirst l) :
    x ∈ l := by
  induction l with
  | nil => cases h
  | cons a t ih =>
    rw [keepFirst, List.mem_cons] at h
    rcases h with h | h
    · exact h ▸ List.mem_cons_self _ _
    · exact List.mem_cons_of_mem _ (ih (List.mem_of_mem_filter h))

theorem dedupe_go_map_href (items : List RawItem) : ∀ seen : List Str,
    (dedupe_go items seen).map SourceHit.href
      = keepFirst ((items.filterMap itemKey).filter
          (fun k => decide (k ∉ seen))) := by
  induction items with
  | nil => intro seen; rfl
  | cons it rest ih =>
    intro seen
    cases hu : it.effUrl with
    | none =>
      have hk : itemKey it = none := by simp [itemKey, hu]
      simp only [dedupe_go, hu, List.filterMap_cons, hk]
      exact ih seen
    | some u =>
      have hk : itemKey it = some (urlKey u) := by simp [itemKey, hu]
      simp only [dedupe_go, hu, List.filterMap_cons, hk]
      by_cases hseen : urlKey u ∈ seen
      · rw [if_pos hseen, List.filter_cons]
        have hd : (decide (urlKey u ∉ seen)) = false := by simp [hseen]
        rw [hd]
        simp only [Bool.false_eq_true, if_false]
        exact ih seen
      · rw [if_neg hseen, List.map_cons, ih (urlKey u :: seen),
          List.filter_cons]
        have hd : (decide (urlKey u ∉ seen)) = true := by simp [hseen]
        rw [hd]
        simp only [if_true]
        rw [keepFirst]
        have hsplit : (rest.filterMap itemKey).filter
              (fun k => decide (k ∉ urlKey u :: seen))
            = ((rest.filterMap itemKey).filter
                (fun k => decide (k ∉ seen))).filter
                (fun x => decide (x ≠ urlKey u)) := by
          rw [List.filter_filter]
          apply List.filter_congr
          intro a ha
          simp only [List.mem_cons, not_or]
          simp
        rw [hsplit, keepFirst_filter_comm]

theorem pySliceTo_length_le (n : Int) (l : List α) (h : 0 ≤ n) :
    (pySliceTo n l).length ≤ n.toNat := by
  rw [pySliceTo, if_pos h]
  simp [List.length_take]

/-- C3 (amended): for hit lists produced by `search_web` — the search
path used by both invocation surfaces — every stored URL is the
normalized provider URL (query string and fragment stripped), no two
hits share a normalized URL, first-seen provider order is preserved
(`keepFirst`), and the list is the dedup output truncated to
`max_results`.  The seed path and the network endpoint's Tavily
fallback bypass `dedupe_urls` and have none of these properties. -/
theorem search_dedupe_invariants :
    (∀ items : List RawItem,
       (∀ h2 ∈ dedupe_urls items, ∃ it ∈ items, ∃ u,
           RawItem.effUrl it = some u ∧ h2.href = urlKey u) ∧
         ((dedupe_urls items).map SourceHit.href).Nodup ∧
         (dedupe_urls items).map SourceHit.href
           = keepFirst (items.filterMap itemKey)) ∧
      (∀ q mr env, 0 ≤ mr →
        (search_web q mr env).1
            = (dedupe_urls (collected env)).take mr.toNat ∧
          (search_web q mr env).1.length ≤ mr.toNat) := by
  have hmap : ∀ items : List RawItem,
      (dedupe_urls items).map SourceHit.href
        = keepFirst (items.filterMap itemKey) := by
    intro items
    have := dedupe_go_map_href items []
    simpa [dedupe_urls] using this
  constructor
  · intro items
    refine ⟨?_, ?_, hmap items⟩
    · intro h2 hmem
      have hh : h2.href ∈ (dedupe_urls items).map SourceHit.href :=
        List.mem_map_of_mem _ hmem
      rw [hmap items] at hh
      have hk := keepFirst_subset _ _ hh
      obtain ⟨it, hit, hkey⟩ := List.mem_filterMap.1 hk
      obtain ⟨u, hu, huk⟩ := Option.map_eq_some'.1 hkey
      exact ⟨it, hit, u, hu, huk.symm⟩
    · rw [hmap items]
      exact keepFirst_nodup _
  · intro q mr env h
    constructor
    · simp [search_web, pySliceTo, h]
    · exact pySliceTo_length_le mr _ h

/-- Counterexample to C3 as stated: the seed path of the Source Finder
(two identical seed URLs) produces a hit list in which two hits share
the same (hence the same normalized) URL. -/
theorem seed_path_duplicates_cex :
    (resolve_sources [] false seedsDup 5 emptySearchEnv).1
        = SRes.proceed
            [⟨str "seed", str "http://a.com/x?q=1#f"⟩,
             ⟨str "seed", str "http://a.com/x?q=1#f"⟩] ∧
      ¬ (List.map SourceHit.href
          [(⟨str "seed", str "http://a.com/x?q=1#f"⟩ : SourceHit),
           ⟨str "seed", str "http://a.com/x?q=1#f"⟩]).Nodup := by
  exact ⟨by decide, by decide⟩

/-- Witness for C3's amended theorem: a concrete item list with a
normalized-URL duplicate, and a concrete bounded search. -/
theorem search_dedupe_invariants_witness :
    ((0 : Int) ≤ 5 ∧ (search_web [] 5 envTav).1.length ≤ (5 : Int).toNat) ∧
      (⟨str "t1", urlKey uA⟩ : SourceHit) ∈ dedupe_urls itemsW ∧
        ∃ it ∈ itemsW, ∃ u, RawItem.effUrl it = some u ∧
          (⟨str "t1", urlKey uA⟩ : SourceHit).href = urlKey u :=
  ⟨⟨by decide, (search_dedupe_invariants.2 [] 5 envTav (by decide)).2⟩,
   by decide,
   (search_dedupe_invariants.1 itemsW).1 ⟨str "t1", urlKey uA⟩ (by decide)⟩

theorem search_web_head_tavily (q : Str) (mr : Int) (env : SearchEnv)
    (hconf : (env.tavilyKey && env.tavilyClient) = true) :
    (search_web q mr env).2.head? = some Provider.tavily := by
  simp [search_web, hconf]

theorem search_web_ddg_only_if_empty (q : Str) (mr : Int) (env : SearchEnv)
    (hm : Provider.ddg ∈ (search_web q mr env).2) : tavilyRaw env = [] := by
  by_cases htv : tavilyRaw env = []
  · exact htv
  · exfalso
    simp only [search_web, htv, if_false] at hm
    by_cases hc : (env.tavilyKey && env.tavilyClient) = true <;>
      simp [hc] at hm

theorem run_agent_trace (req : RunRequest) (env : ServerEnv)
    (h : (req.demo_mode || env.demoLock) = false) :
    (run_agent req env).2
      = (server_search req.query req.max_results env).2 := by
  rw [run_agent, if_neg (by simp [h])]
  by_cases hp : (server_search req.query req.max_results env).1 = []
  · simp [hp]
  · simp [hp]

theorem server_search_head_tavily (q : Str) (mr : Int) (env : ServerEnv)
    (hconf : (env.agentSearch.tavilyKey && env.agentSearch.tavilyClient)
      = true) :
    (server_search q mr env).2.head? = some Provider.tavily := by
  have h1 := search_web_head_tavily q mr env.agentSearch hconf
  rw [server_search]
  by_cases hp : (search_web q mr env.agentSearch).1 = []
  · simp only [hp, if_pos rfl]
    cases htr : (search_web q mr env.agentSearch).2 with
    | nil => rw [htr] at h1; cases h1
    | cons a l =>
      rw [htr] at h1
      simp only [List.head?_cons, Option.some.injEq] at h1
      simp [htr, h1]
  · simp [hp, h1]

theorem server_search_ddg_mem (q : Str) (mr : Int) (env : ServerEnv)
    (hm : Provider.ddg ∈ (server_search q mr env).2) :
    Provider.ddg ∈ (search_web q mr env.agentSearch).2 := by
  rw [server_search] at hm
  by_cases hp : (search_web q mr env.agentSearch).1 = []
  · simp only [hp, if_pos rfl] at hm
    rcases List.mem_append.1 hm with h | h
    · exact h
    · exfalso
      by_cases hk : env.serverTavilyKey = true <;> simp [hk] at h
  · simpa [hp] using hm

/-- C4: on a search invocation the Tavily provider is queried first
whenever its credential is configured (and its client importable), and
DuckDuckGo is queried only if the Tavily phase yielded zero usable
results (which covers: not configured, the provider raising, or no
items with a URL); this holds on the direct surface (`search_web`) and
on the non-demo network endpoint (`run_agent`). -/
theorem provider_order :
    (∀ q mr env,
       ((env.tavilyKey && env.tavilyClient) = true →
         (search_web q mr env).2.head? = some Provider.tavily) ∧
         (Provider.ddg ∈ (search_web q mr env).2 → tavilyRaw env = [])) ∧
      (∀ req senv, (req.demo_mode || senv.demoLock) = false →
        ((senv.agentSearch.tavilyKey && senv.agentSearch.tavilyClient)
            = true →
          (run_agent req senv).2.head? = some Provider.tavily) ∧
          (Provider.ddg ∈ (run_agent req senv).2 →
            tavilyRaw senv.agentSearch = [])) := by
  constructor
  · intro q mr env
    exact ⟨search_web_head_tavily q mr env,
      search_web_ddg_only_if_empty q mr env⟩
  · intro req senv h
    rw [run_agent_trace req senv h]
    constructor
    · exact server_search_head_tavily _ _ senv
    · intro hm
      exact search_web_ddg_only_if_empty _ _ _
        (server_search_ddg_mem _ _ senv hm)

/-- Witness for C4 at a configured-Tavily environment, on both
surfaces. -/
theorem provider_order_witness :
    ((envTav.tavilyKey && envTav.tavilyClient) = true ∧
       (search_web (str "q") 3 envTav).2.head? = some Provider.tavily) ∧
      ((req3.demo_mode || srvEnvT.demoLock) = false ∧
        (run_agent req3 srvEnvT).2.head? = some Provider.tavily) :=
  ⟨⟨by decide, (provider_order.1 (str "q") 3 envTav).1 (by decide)⟩,
   ⟨by decide, (provider_order.2 req3 srvEnvT (by decide)).1 (by decide)⟩⟩

theorem resolve_seed_proceed (q : Str) (ns : Bool) (seeds : List Str)
    (mr : Int) (env : SearchEnv) (h : ∃ u ∈ seeds, pyStrip u ≠ []) :
    resolve_sources q ns seeds mr env = (.proceed (seedHits seeds), []) := by
  obtain ⟨u, hu, hblank⟩ := h
  have hne : seeds ≠ [] := List.ne_nil_of_mem hu
  have hhits : seedHits seeds ≠ [] := by
    have hm : u ∈ seeds.filter (fun v => pyStrip v ≠ []) :=
      List.mem_filter.2 ⟨hu, by simpa using hblank⟩
    exact List.ne_nil_of_mem (List.mem_map_of_mem _ hm)
  rw [resolve_sources, if_pos hne]
  simp [hhits]

/-- C8: in the source-resolution step of the orchestrator: non-blank
seeds become `"seed"`-titled hits with no provider queried (trace `[]`);
all-blank seeds terminate with the no-valid-seeds message; no seeds plus
disabled search terminates with the search-disabled message and an empty
source list; and each of these paths returns normally (`Except.ok`). -/
theorem resolve_sources_cases (q : Str) (ns : Bool) (seeds : List Str)
    (mr : Int) (fl : Bool) (aenv : AgentEnv) :
    ((∃ u ∈ seeds, pyStrip u ≠ []) →
       resolve_sources q ns seeds mr aenv.search
         = (.proceed ((seeds.filter (fun u => pyStrip u ≠ [])).map
             (fun u => ⟨str "seed", u⟩)), [])) ∧
      (seeds ≠ [] → (∀ u ∈ seeds, pyStrip u = []) →
        resolve_sources q ns seeds mr aenv.search
            = (.terminal (str "No valid seed URLs provided."), []) ∧
          minimal_research_agent q ns seeds fl mr aenv
            = .ok ⟨str "No valid seed URLs provided.", []⟩) ∧
      (seeds = [] → ns = true →
        resolve_sources q ns seeds mr aenv.search
            = (.terminal
                (str "no_search requires --seed URL(s). Provide at least one URL."),
               []) ∧
          minimal_research_agent q ns seeds fl mr aenv
            = .ok ⟨str "no_search requires --seed URL(s). Provide at least one URL.",
                   []⟩) := by
  refine ⟨fun h => resolve_seed_proceed q ns seeds mr aenv.search h, ?_, ?_⟩
  · intro hne hall
    have hhits : seedHits seeds = [] := by
      rw [seedHits]
      have hf : seeds.filter (fun u => pyStrip u ≠ []) = [] :=
        List.filter_eq_nil_iff.2 (fun a ha => by simp [hall a ha])
      rw [hf, List.map_nil]
    have hres : resolve_sources q ns seeds mr aenv.search
        = (.terminal (str "No valid seed URLs provided."), []) := by
      rw [resolve_sources, if_pos hne]
      simp [hhits]
    refine ⟨hres, ?_⟩
    simp only [minimal_research_agent, hres]
  · intro hseeds hns
    subst hseeds
    have hres : resolve_sources q ns [] mr aenv.search
        = (.terminal
            (str "no_search requires --seed URL(s). Provide at least one URL."),
           []) := by
      rw [resolve_sources, if_neg (by simp)]
      simp [hns]
    refine ⟨hres, ?_⟩
    simp only [minimal_research_agent, hres]

/-- Witness for C8 at concrete seed lists for each of the three cases. -/
theorem resolve_sources_cases_witness :
    ((∃ u ∈ seedsMix, pyStrip u ≠ []) ∧
       resolve_sources [] false seedsMix 5 agentEnv0.search
         = (.proceed ((seedsMix.filter (fun u => pyStrip u ≠ [])).map
             (fun u => ⟨str "seed", u⟩)), [])) ∧
      minimal_research_agent [] true seedsBlank false 5 agentEnv0
          = .ok ⟨str "No valid seed URLs provided.", []⟩ ∧
        minimal_research_agent [] true [] false 5 agentEnv0
          = .ok ⟨str "no_search requires --seed URL(s). Provide at least one URL.",
                 []⟩ :=
  ⟨⟨by decide,
    (resolve_sources_cases [] false seedsMix 5 false agentEnv0).1 (by decide)⟩,
   ((resolve_sources_cases [] true seedsBlank 5 false agentEnv0).2.1
      (by decide) (by decide)).2,
   ((resolve_sources_cases [] true [] 5 false agentEnv0).2.2 rfl rfl).2⟩

/-- C10: with at least one non-blank seed, the source list is exactly
the non-blank seeds in their given order, each used verbatim as the
URL (query string and fragment retained, duplicates kept, no truncation
to `max_results`). -/
theorem seed_verbatim (q : Str) (ns : Bool) (seeds : List Str) (mr : Int)
    (aenv : AgentEnv) (h : ∃ u ∈ seeds, pyStrip u ≠ []) :
    (resolve_sources q ns seeds mr aenv.search).1
        = .proceed ((seeds.filter (fun u => pyStrip u ≠ [])).map
            (fun u => ⟨str "seed", u⟩)) ∧
      ∃ r, minimal_research_agent q ns seeds true mr aenv = .ok r ∧
        r.sources = (seeds.filter (fun u => pyStrip u ≠ [])).map
            (fun u => ⟨str "seed", u⟩) := by
  have hres := resolve_seed_proceed q ns seeds mr aenv.search h
  constructor
  · rw [hres]
    rfl
  · refine ⟨⟨local_extractive_summary
        (List.intercalate (str "\n\n")
          ((seedHits seeds).map (noteChunk aenv.fetchText))) 8,
        seedHits seeds⟩, ?_, rfl⟩
    simp only [minimal_research_agent, hres]
    rfl

/-- Witness for C10 at duplicate seeds with query and fragment, and a
`max_results` smaller than the seed count. -/
theorem seed_verbatim_witness :
    (∃ u ∈ seedsDup, pyStrip u ≠ []) ∧
      (resolve_sources [] false seedsDup 1 agentEnv0.search).1
        = .proceed ((seedsDup.filter (fun u => pyStrip u ≠ [])).map
            (fun u => ⟨str "seed", u⟩)) :=
  ⟨by decide, (seed_verbatim [] false seedsDup 1 agentEnv0 (by decide)).1⟩

/-- C7 (amended): the command surface clamps the requested count to
`[1, 8]` (`max(1, min(8, m))`), so a CLI search-path run yields at most
8 SourceHits for any requested count; the network endpoint applies no
clamp and passes the requested count through, so requesting 20 there
can yield more than 8 SourceHits. -/
theorem cli_clamp_bounds :
    (∀ m : Int, 1 ≤ cli_effective_max_results m ∧
        cli_effective_max_results m ≤ 8) ∧
      (∀ (q : Str) (ns fl : Bool) (m : Int) (aenv : AgentEnv) r,
        minimal_research_agent q ns [] fl (cli_effective_max_results m) aenv
            = .ok r →
          r.sources.length ≤ 8) := by
  have hcli : ∀ m : Int, 1 ≤ cli_effective_max_results m ∧
      cli_effective_max_results m ≤ 8 := by
    intro m
    rw [cli_effective_max_results]
    constructor
    · exact le_max_left 1 _
    · exact max_le (by norm_num) (min_le_left 8 m)
  refine ⟨hcli, ?_⟩
  intro q ns fl m aenv r hr
  rcases hres : resolve_sources q ns []
      (cli_effective_max_results m) aenv.search with ⟨res, tr⟩
  cases res with
  | terminal msg =>
    simp only [minimal_research_agent, hres] at hr
    cases hr
    simp
  | proceed hits =>
    have hhits : hits
        = (search_web q (cli_effective_max_results m) aenv.search).1 := by
      rw [resolve_sources, if_neg (by simp)] at hres
      by_cases hns : ns = true
      · simp [hns] at hres
      · simp only [hns, Bool.false_eq_true, if_false] at hres
        by_cases hw : (search_web q (cli_effective_max_results m)
            aenv.search).1 = []
        · simp [hw] at hres
        · rw [if_neg hw] at hres
          injection hres with h1 h2
          injection h1 with h3
          exact h3.symm
    have hlen : hits.length ≤ (cli_effective_max_results m).toNat := by
      rw [hhits]
      exact pySliceTo_length_le _ _ (by have := (hcli m).1; omega)
    have hsrc : r.sources = hits := by
      simp only [minimal_research_agent, hres] at hr
      by_cases hfl : fl = true
      · simp only [hfl, if_true] at hr
        cases hr
        rfl
      · simp only [hfl, Bool.false_eq_true, if_false] at hr
        cases hsy : synthesize_with_openai q
            (List.intercalate (str "\n\n")
              (hits.map (noteChunk aenv.fetchText))) hits aenv.openai with
        | error e => rw [hsy] at hr; cases hr
        | ok a => rw [hsy] at hr; cases hr; rfl
    rw [hsrc]
    have h8 := (hcli m).2
    omega

/-- Witness for C7's amended theorem on a concrete CLI run requesting
20 results. -/
theorem cli_clamp_bounds_witness :
    minimal_research_agent (str "q") false [] true
          (cli_effective_max_results 20) agentEnv0
        = .ok ⟨str "No search results (rate-limited or blocked). Try fewer results or provide --seed.",
               []⟩ ∧
      (⟨str "No search results (rate-limited or blocked). Try fewer results or provide --seed.",
          []⟩ : AgentResult).sources.length ≤ 8 ∧
        1 ≤ cli_effective_max_results 20 ∧
          cli_effective_max_results 20 ≤ 8 :=
  ⟨by rfl,
   cli_clamp_bounds.2 (str "q") false true 20 agentEnv0 _ (by rfl),
   cli_clamp_bounds.1 20⟩

/-- Counterexample to C7 as stated: the network endpoint does not clamp
`max_results`; with 20 requested and nine distinct provider results,
`run_agent` returns nine SourceHits — more than 8. -/
theorem server_no_clamp_cex :
    ((run_agent req20 srvEnv9).1.toOption.map (fun r => r.sources.length))
        = some 9 ∧ ¬ (9 ≤ 8) := ⟨by decide, by decide⟩
